import Mathlib

/-!
# VirtualPLC: I/O accessors, lifecycle and configuration constants

A shallow embedding of `src/VirtualPLC/VirtualPLC.h`.  The header defines inline
`isRunning`, `getY`, `getYs`, `setXs`, `getMaxX`, `getMaxY`, `resetXs`, `resetYs`
and the constants `nX`, `nY`, `TICK`, `RUN`; these are translated line by line.
`clear`, `run`, `start`, `stop` and `setX` are only declared in the header (their
bodies live in a translation unit that is not part of the sources), so they are
modelled from the specification and marked as such.

Machine integers: `int32_t` values are mathematical integers (`Int`) read in
two's complement, so `Int.land`, `Int.lor`, `Int.lnot` and `Int.testBit` are the
C++ operators `&`, `|`, `~` and "bit `i` of the word".
-/

namespace PLC

/-! ## Configuration and memory -/

/-- The constants of `MemoryConfig.h` that `VirtualPLC.h` refers to.  That header is
not part of the sources, so the addresses and sizes are taken as parameters. -/
structure MemoryConfig where
  INPUT_X : Nat
  OUTPUT_Y : Nat
  nTIMERS : Nat
  nCOUNTERS : Nat
deriving DecidableEq, Repr

/-- One memory cell.  `VirtualPLC.h` only ever touches its `integer` member, which it
reads as an `int32_t` (the return type of `getYs`, the argument type of `setXs`). -/
structure Cell where
  integer : Int
deriving DecidableEq, Repr

/-- Modelled from the spec: `Memory.h` is missing.  The register file is "an array of
fixed-width cells" addressed by a cell number; `_memory[a]` is the cell at address
`a`. -/
abbrev Memory := Nat → Cell

/-- Modelled from the spec: the initial image of the register file ("initial (zero)
state"): every cell holds zero. -/
def Memory.initial : Memory := fun _ => ⟨0⟩

/-- Assignment `mem[a].integer = v`: the cell at `a` is replaced, all others kept. -/
def Memory.write (mem : Memory) (a : Nat) (v : Int) : Memory :=
  fun b => if b = a then ⟨v⟩ else mem b

/-- Modelled from the spec: `Timer.h` is missing.  The mutable attributes of a timer
(preset duration, elapsed duration, running flag, done flag); its identifier and
its wiring are its position in the timer array. -/
structure Timer where
  preset : Nat
  elapsed : Nat
  running : Bool
  done : Bool
deriving DecidableEq, Repr

/-- Modelled from the spec: the initial (zero) state of a timer. -/
def Timer.initial : Timer := ⟨0, 0, false, false⟩

/-- Modelled from the spec: `Counter.h` is missing.  The mutable attributes of a
counter (preset count, current count, last observed count input, done flag). -/
structure Counter where
  preset : Nat
  count : Nat
  lastInput : Bool
  done : Bool
deriving DecidableEq, Repr

/-- Modelled from the spec: the initial (zero) state of a counter. -/
def Counter.initial : Counter := ⟨0, 0, false, false⟩

/-- Modelled from the spec: `PeriodicTask.h` is missing.  The states of a periodic
task as listed in the spec. -/
inductive PeriodicTask where
  | Idle
  | Running
  | Stopping
  | Stopped
deriving DecidableEq, Repr

/-- Modelled from the spec: `start()` begins the loop "if Idle or Stopped" and is a
no-op while already running. -/
def PeriodicTask.start : PeriodicTask → PeriodicTask
  | .Idle => .Running
  | .Stopped => .Running
  | .Running => .Running
  | .Stopping => .Stopping

/-- Modelled from the spec: `stop()` returns only once the execution context has
terminated, and is a no-op on an idle or stopped task. -/
def PeriodicTask.stop : PeriodicTask → PeriodicTask
  | .Running => .Stopped
  | .Stopping => .Stopped
  | .Idle => .Idle
  | .Stopped => .Stopped

/-! ## The controller -/

/-- The data members of `class VirtualPLC` (the mutex, the file streams and the
processor carry no data that the members below read or write and are left out).
`_step` is an `unsigned long long`; no operation below does arithmetic on it. -/
structure VirtualPLC where
  _memory : Memory
  _timers : List Timer
  _counters : List Counter
  _memoryIsLoaded : Bool
  _isRunning : Bool
  _step : Nat
  _tickTask : PeriodicTask
  _runTask : PeriodicTask

/-- What a call can report instead of a value.  `IndexOutOfRange` is the error of the
spec; `UndefinedShift` marks a shift `1 << index` whose count is outside the width
of `int`, for which C++ defines no result. -/
inductive Fault where
  | IndexOutOfRange
  | UndefinedShift
deriving DecidableEq, Repr

/-- Conversion of an integer to `int32_t` (two's complement wrap-around). -/
def toInt32 (x : Int) : Int := (x + 2 ^ 31) % 2 ^ 32 - 2 ^ 31

/-- The expression `1 << index` on `int`: defined for a shift count in `[0, 32)`
(for 31 the result is the most negative `int`), undefined otherwise. -/
def shiftLeftOne (index : Int) : Except Fault Int :=
  if 0 ≤ index ∧ index < 32 then .ok (toInt32 (2 ^ index.toNat))
  else .error .UndefinedShift

/-- A `const` member function in state-passing form: the value it returns, paired
with the controller it was called on (which it cannot modify). -/
def constCall {α : Type} (f : VirtualPLC → α) (s : VirtualPLC) : α × VirtualPLC :=
  (f s, s)

namespace VirtualPLC

/-- Number of inputs: `static const int32_t nX = 8;`. -/
def nX : Int := 8

/-- Number of outputs: `static const int32_t nY = 6;`. -/
def nY : Int := 6

/-- Period of the tick task in msec: `static const int32_t TICK = 100;`. -/
def TICK : Int := 100

/-- Period of the run task in msec: `static const int32_t RUN = 50;`. -/
def RUN : Int := 50

/-- Source: `bool isRunning() const noexcept { return _isRunning; }`. -/
def isRunning (s : VirtualPLC) : Bool := s._isRunning

/-- Source: `bool getY(int32_t index) const noexcept {
return _memory[MemoryConfig::OUTPUT_Y].integer & (1 << index); }`.
The `int` result of `&` is converted to `bool`, that is, compared with zero. -/
def getY (cfg : MemoryConfig) (s : VirtualPLC) (index : Int) : Except Fault Bool :=
  match shiftLeftOne index with
  | .ok mask => .ok (decide (Int.land (s._memory cfg.OUTPUT_Y).integer mask ≠ 0))
  | .error e => .error e

/-- Source: `int32_t getYs() const noexcept {
return _memory[MemoryConfig::OUTPUT_Y].integer; }`. -/
def getYs (cfg : MemoryConfig) (s : VirtualPLC) : Int :=
  (s._memory cfg.OUTPUT_Y).integer

/-- Source: `void setXs(int32_t status) noexcept {
_memory[MemoryConfig::INPUT_X].integer = status; }`. -/
def setXs (cfg : MemoryConfig) (s : VirtualPLC) (status : Int) : VirtualPLC :=
  { s with _memory := s._memory.write cfg.INPUT_X status }

/-- Source: `int getMaxX() const noexcept { return nX; }`. -/
def getMaxX (_s : VirtualPLC) : Int := nX

/-- Source: `int getMaxY() const noexcept { return nY; }`. -/
def getMaxY (_s : VirtualPLC) : Int := nY

/-- Source: `void resetXs() noexcept { _memory[MemoryConfig::INPUT_X].integer = 0; }`. -/
def resetXs (cfg : MemoryConfig) (s : VirtualPLC) : VirtualPLC :=
  { s with _memory := s._memory.write cfg.INPUT_X 0 }

/-- Source: `void resetYs() noexcept { _memory[MemoryConfig::OUTPUT_Y].integer = 0; }`. -/
def resetYs (cfg : MemoryConfig) (s : VirtualPLC) : VirtualPLC :=
  { s with _memory := s._memory.write cfg.OUTPUT_Y 0 }

/-- Modelled from the spec: the body of `stop()` is missing.  "Running --stop()-->
Stopped": the lifecycle flag is cleared and both periodic tasks are stopped. -/
def stop (s : VirtualPLC) : VirtualPLC :=
  { s with _isRunning := false, _tickTask := s._tickTask.stop, _runTask := s._runTask.stop }

/-- Modelled from the spec: the body of `run()` is missing.  "Stopped --run()-->
Running", starting the tick and run periodic tasks, nothing else touched. -/
def run (s : VirtualPLC) : VirtualPLC :=
  { s with _isRunning := true, _tickTask := s._tickTask.start, _runTask := s._runTask.start }

/-- Modelled from the spec: the body of `start()` is missing.  "Stopped --start()-->
Running", resuming "without reinitializing memory/timers/counters" and starting the
tick and run periodic tasks. -/
def start (s : VirtualPLC) : VirtualPLC :=
  { s with _isRunning := true, _tickTask := s._tickTask.start, _runTask := s._runTask.start }

/-- Modelled from the spec: the body of `clear()` is missing.  "Clear resets Register
File, all Timers, all Counters, and the step counter to their initial (zero) state,
and forces lifecycle state to Stopped"; the header adds "Stop PLC and put PLC in
initial state".  The spec does not mention the memory-loaded flag; it is kept. -/
def clear (cfg : MemoryConfig) (s : VirtualPLC) : VirtualPLC :=
  let s1 := s.stop
  { s1 with
    _memory := Memory.initial
    _timers := List.replicate cfg.nTIMERS Timer.initial
    _counters := List.replicate cfg.nCOUNTERS Counter.initial
    _step := 0 }

/-- Modelled from the spec: the body of `setX` is missing.  `setInput(index, bool)` is
"bounds-checked against the configured input ... counts and reported as
IndexOutOfRange otherwise"; inside the range it sets or clears bit `index` of the
input word (header: "Set input by index (0..nX) en status (true/false)"). -/
def setX (cfg : MemoryConfig) (s : VirtualPLC) (index : Int) (status : Bool) :
    Except Fault VirtualPLC :=
  if 0 ≤ index ∧ index < nX then
    let word := (s._memory cfg.INPUT_X).integer
    let mask : Int := 2 ^ index.toNat
    let word' := if status then Int.lor word mask else Int.land word (Int.lnot mask)
    .ok { s with _memory := s._memory.write cfg.INPUT_X word' }
  else .error .IndexOutOfRange

/-- The input word, `_memory[MemoryConfig::INPUT_X].integer`. -/
def inputWord (cfg : MemoryConfig) (s : VirtualPLC) : Int :=
  (s._memory cfg.INPUT_X).integer

end VirtualPLC

/-! ## Concrete values used to exercise the statements -/

/-- A configuration with distinct input and output cells. -/
def sampleConfig : MemoryConfig := ⟨0, 1, 2, 2⟩

/-- A stopped controller whose output word has bits 0 and 6 set. -/
def sampleStopped : VirtualPLC :=
  { _memory := fun a => if a = 1 then ⟨65⟩ else ⟨0⟩
    _timers := [⟨3, 1, true, false⟩, Timer.initial]
    _counters := [Counter.initial, ⟨2, 1, true, false⟩]
    _memoryIsLoaded := true
    _isRunning := false
    _step := 7
    _tickTask := .Stopped
    _runTask := .Stopped }

/-- The same controller after it has been put in running mode. -/
def sampleRunning : VirtualPLC :=
  { sampleStopped with _isRunning := true, _tickTask := .Running, _runTask := .Running }

/-! ## Helper lemmas -/

theorem Memory.write_same (mem : Memory) (a : Nat) (v : Int) :
    (mem.write a v a).integer = v := by
  simp [Memory.write]

theorem Memory.write_other (mem : Memory) (a b : Nat) (v : Int) (h : b ≠ a) :
    mem.write a v b = mem b := by
  simp [Memory.write, h]

theorem Memory.write_write (mem : Memory) (a : Nat) (v w : Int) :
    (mem.write a v).write a w = mem.write a w := by
  funext b
  by_cases h : b = a <;> simp [Memory.write, h]

theorem Memory.initial_write_zero (a : Nat) : Memory.initial.write a 0 = Memory.initial := by
  funext b
  by_cases h : b = a <;> simp [Memory.write, Memory.initial, h]

theorem PeriodicTask.stop_stop (t : PeriodicTask) : t.stop.stop = t.stop := by
  cases t <;> rfl

theorem nat_single_bit (x i : Nat) (b : Bool)
    (h : ∀ k, x.testBit k = (decide (i = k) && b)) : x = if b then 2 ^ i else 0 := by
  apply Nat.eq_of_testBit_eq
  intro k
  rw [h k]
  cases b <;> simp [Nat.testBit_two_pow]

theorem two_pow_cast (i : Nat) : ((2 : Int) ^ i) = ((2 ^ i : Nat) : Int) := by
  push_cast
  rfl

theorem int_testBit_natCast (x k : Nat) : (x : Int).testBit k = x.testBit k := rfl

theorem int_testBit_two_pow (i k : Nat) : ((2 : Int) ^ i).testBit k = decide (i = k) := by
  rw [two_pow_cast]
  exact Nat.testBit_two_pow

theorem int_land_natCast (w : Int) (m : Nat) : ∃ x : Nat, Int.land w (m : Int) = (x : Int) := by
  cases w with
  | ofNat n => exact ⟨n &&& m, rfl⟩
  | negSucc n => exact ⟨Nat.ldiff m n, rfl⟩

/-- Masking with a single bit: `w & (1 << i)` is `1 << i` when bit `i` of `w` is set
and zero otherwise. -/
theorem land_two_pow (w : Int) (i : Nat) :
    Int.land w ((2 : Int) ^ i) = if w.testBit i then (2 : Int) ^ i else 0 := by
  obtain ⟨x, hx⟩ := int_land_natCast w (2 ^ i)
  rw [two_pow_cast, hx]
  have hbits : ∀ k, x.testBit k = (decide (i = k) && w.testBit i) := by
    intro k
    rw [← int_testBit_natCast, ← hx, Int.testBit_land, int_testBit_natCast, Nat.testBit_two_pow]
    by_cases hik : i = k
    · subst hik; simp
    · simp [hik]
  rw [nat_single_bit x i _ hbits]
  split <;> simp

theorem land_two_pow_ne_zero (w : Int) (i : Nat) :
    decide (Int.land w ((2 : Int) ^ i) ≠ 0) = w.testBit i := by
  rw [land_two_pow]
  cases h : w.testBit i <;> simp

theorem int_testBit_shiftRight (w : Int) (i k : Nat) :
    (Int.shiftRight w i).testBit k = w.testBit (i + k) := by
  cases w with
  | ofNat n => exact Nat.testBit_shiftRight n
  | negSucc n =>
    show (!(Nat.testBit (n >>> i) k)) = !(Nat.testBit n (i + k))
    rw [Nat.testBit_shiftRight]

theorem land_one_eq_one (y : Int) : Int.land y 1 = 1 ↔ y.testBit 0 = true := by
  have h := land_two_pow y 0
  simp only [pow_zero] at h
  rw [h]
  cases y.testBit 0 <;> simp

theorem two_pow_lt (i : Nat) (h : i < 31) : (0 : Int) < 2 ^ i ∧ (2 : Int) ^ i < 2 ^ 31 := by
  constructor
  · positivity
  · exact pow_lt_pow_right₀ (by norm_num) h

theorem toInt32_two_pow (i : Nat) (h : i < 31) : toInt32 ((2 : Int) ^ i) = 2 ^ i := by
  obtain ⟨h0, h1⟩ := two_pow_lt i h
  unfold toInt32
  rw [Int.emod_eq_of_lt (by omega) (by omega)]
  omega

/-- For a shift count in `[0, 31)` the mask `1 << index` is the plain power of two. -/
theorem shiftLeftOne_ok (index : Int) (h : 0 ≤ index ∧ index < 31) :
    shiftLeftOne index = .ok ((2 : Int) ^ index.toNat) := by
  have h32 : 0 ≤ index ∧ index < 32 := ⟨h.1, by omega⟩
  have hn : index.toNat < 31 := by omega
  simp [shiftLeftOne, h32, toInt32_two_pow _ hn]

/-- Inside `[0, 31)` `getY` returns bit `index` of the output word. -/
theorem getY_eq_testBit (cfg : MemoryConfig) (s : VirtualPLC) (index : Int)
    (h : 0 ≤ index ∧ index < 31) :
    s.getY cfg index = .ok ((s.getYs cfg).testBit index.toNat) := by
  unfold VirtualPLC.getY
  rw [shiftLeftOne_ok index h]
  simp only [VirtualPLC.getYs]
  rw [land_two_pow_ne_zero]

/-- The input word written by an in-range `setX`. -/
theorem setX_ok (cfg : MemoryConfig) (s : VirtualPLC) (index : Int) (status : Bool)
    (h : 0 ≤ index ∧ index < VirtualPLC.nX) :
    ∃ s', s.setX cfg index status = .ok s'
      ∧ s'.inputWord cfg =
          (if status then Int.lor (s.inputWord cfg) ((2 : Int) ^ index.toNat)
           else Int.land (s.inputWord cfg) (Int.lnot ((2 : Int) ^ index.toNat))) := by
  refine ⟨_, by simp only [VirtualPLC.setX, h, and_self, if_true]; rfl, ?_⟩
  simp [VirtualPLC.inputWord, Memory.write_same]

/-- Bits of the input word after an in-range `setX`: bit `index` is `status`, every
other bit is as before. -/
theorem setX_bits (cfg : MemoryConfig) (s : VirtualPLC) (index : Int) (status : Bool)
    (h : 0 ≤ index ∧ index < VirtualPLC.nX) :
    ∃ s', s.setX cfg index status = .ok s'
      ∧ ∀ k : Nat, (s'.inputWord cfg).testBit k =
          if index.toNat = k then status else (s.inputWord cfg).testBit k := by
  obtain ⟨s', hs', hw⟩ := setX_ok cfg s index status h
  refine ⟨s', hs', ?_⟩
  intro k
  rw [hw]
  cases status
  · simp only [Bool.false_eq_true, if_false, Int.testBit_land, Int.testBit_lnot,
      int_testBit_two_pow]
    by_cases hk : index.toNat = k <;> simp [hk]
  · simp only [if_true, Int.testBit_lor, int_testBit_two_pow]
    by_cases hk : index.toNat = k <;> simp [hk]

/-! ## Configuration constants -/

/-- C9: in every controller state `getMaxX()` returns 8 and `getMaxY()` returns 6;
these are the constants `nX` and `nY`, they are the same in any two controller
states, and none of the operations (`setXs`, `resetXs`, `resetYs`, `run`, `start`,
`stop`, `clear`) changes them. -/
theorem getMax_fixed (cfg : MemoryConfig) (s t : VirtualPLC) (w : Int) :
    s.getMaxX = 8 ∧ s.getMaxY = 6
    ∧ s.getMaxX = VirtualPLC.nX ∧ s.getMaxY = VirtualPLC.nY
    ∧ t.getMaxX = s.getMaxX ∧ t.getMaxY = s.getMaxY
    ∧ (s.setXs cfg w).getMaxX = s.getMaxX ∧ (s.setXs cfg w).getMaxY = s.getMaxY
    ∧ (s.resetXs cfg).getMaxX = s.getMaxX ∧ (s.resetYs cfg).getMaxY = s.getMaxY
    ∧ s.run.getMaxX = s.getMaxX ∧ s.run.getMaxY = s.getMaxY
    ∧ s.start.getMaxX = s.getMaxX ∧ s.start.getMaxY = s.getMaxY
    ∧ s.stop.getMaxX = s.getMaxX ∧ s.stop.getMaxY = s.getMaxY
    ∧ (s.clear cfg).getMaxX = s.getMaxX ∧ (s.clear cfg).getMaxY = s.getMaxY
    ∧ (constCall VirtualPLC.getMaxX s).2 = s ∧ (constCall VirtualPLC.getMaxY s).2 = s := by
  simp [VirtualPLC.getMaxX, VirtualPLC.getMaxY, VirtualPLC.nX, VirtualPLC.nY, constCall]

/-- C10: the periods are positive constants, `RUN = 50` and `TICK = 100`, the run
period is strictly shorter than the tick period, and `TICK` is exactly twice `RUN`
(an integer multiple with quotient 2 and remainder 0). -/
theorem periods_run_twice_per_tick :
    VirtualPLC.RUN = 50 ∧ VirtualPLC.TICK = 100
    ∧ 0 < VirtualPLC.RUN ∧ VirtualPLC.RUN < VirtualPLC.TICK
    ∧ VirtualPLC.TICK = 2 * VirtualPLC.RUN
    ∧ VirtualPLC.TICK % VirtualPLC.RUN = 0 ∧ VirtualPLC.TICK / VirtualPLC.RUN = 2 := by
  simp [VirtualPLC.RUN, VirtualPLC.TICK]

/-! ## Word-level input write -/

/-- C4: `setXs` is a total state replacement of the input word.  For every state and
every word `w` the input cell afterwards holds exactly `w`; every other memory cell,
the running flag, the timers, the counters, the step counter and the tasks are
unchanged; with `INPUT_X` and `OUTPUT_Y` distinct the output word read by `getYs`
is unchanged; and `setXs w2` after `setXs w1` gives the same state as `setXs w2`. -/
theorem setXs_replaces_input_word (cfg : MemoryConfig) (s : VirtualPLC) (w w1 w2 : Int)
    (hreg : cfg.INPUT_X ≠ cfg.OUTPUT_Y) :
    (s.setXs cfg w).inputWord cfg = w
    ∧ (s.setXs cfg w).getYs cfg = s.getYs cfg
    ∧ (s.setXs cfg w).isRunning = s.isRunning
    ∧ (∀ a, a ≠ cfg.INPUT_X → (s.setXs cfg w)._memory a = s._memory a)
    ∧ (s.setXs cfg w)._timers = s._timers ∧ (s.setXs cfg w)._counters = s._counters
    ∧ (s.setXs cfg w)._step = s._step
    ∧ (s.setXs cfg w)._memoryIsLoaded = s._memoryIsLoaded
    ∧ (s.setXs cfg w)._tickTask = s._tickTask ∧ (s.setXs cfg w)._runTask = s._runTask
    ∧ (s.setXs cfg w1).setXs cfg w2 = s.setXs cfg w2 := by
  refine ⟨?_, ?_, rfl, ?_, rfl, rfl, rfl, rfl, rfl, rfl, ?_⟩
  · simp [VirtualPLC.setXs, VirtualPLC.inputWord, Memory.write_same]
  · simp [VirtualPLC.setXs, VirtualPLC.getYs, Memory.write_other _ _ _ _ (Ne.symm hreg)]
  · intro a ha
    simp [VirtualPLC.setXs, Memory.write_other _ _ _ _ ha]
  · simp [VirtualPLC.setXs, Memory.write_write]

/-- Witness for C4: the scenario word `0b00000101` written to the sample controller. -/
theorem setXs_replaces_input_word_witness :
    sampleConfig.INPUT_X ≠ sampleConfig.OUTPUT_Y
    ∧ (sampleStopped.setXs sampleConfig 5).inputWord sampleConfig = 5
    ∧ (sampleStopped.setXs sampleConfig 5).getYs sampleConfig = 65 :=
  have h := setXs_replaces_input_word sampleConfig sampleStopped 5 1 2 (by decide)
  ⟨by decide, h.1, h.2.1.trans rfl⟩

/-- C2 fails as stated: `setXs 256` is stored as is.  The word has bit 8 set, a
position outside `[0, nX)`, yet the input word changes and the stored input word
then has bit 8 set. -/
theorem setXs_unchecked_counterexample :
    ¬ (∀ (s : VirtualPLC) (w : Int),
        (∃ k : Nat, VirtualPLC.nX ≤ (k : Int) ∧ w.testBit k = true) →
          (s.setXs sampleConfig w).inputWord sampleConfig = s.inputWord sampleConfig)
    ∧ ¬ (∀ (s : VirtualPLC) (w : Int) (k : Nat), VirtualPLC.nX ≤ (k : Int) →
          ((s.setXs sampleConfig w).inputWord sampleConfig).testBit k = false) := by
  constructor
  · intro h
    have h1 := h sampleStopped 256 ⟨8, by decide, by decide⟩
    revert h1
    decide
  · intro h
    have h1 := h sampleStopped 256 8 (by decide)
    revert h1
    decide

/-- C2 amended: `setXs` does no bounds check against `nX`.  For every word `w`, also
one with a bit set at a position `k >= nX`, the input word after `setXs w` is
exactly `w`, so that bit is set in the stored input word. -/
theorem setXs_stores_any_word (cfg : MemoryConfig) (s : VirtualPLC) (w : Int) (k : Nat)
    (hk : VirtualPLC.nX ≤ (k : Int)) (hbit : w.testBit k = true) :
    (s.setXs cfg w).inputWord cfg = w
    ∧ ((s.setXs cfg w).inputWord cfg).testBit k = true := by
  have hw : (s.setXs cfg w).inputWord cfg = w := by
    simp [VirtualPLC.setXs, VirtualPLC.inputWord, Memory.write_same]
  have _ := hk
  exact ⟨hw, by rw [hw]; exact hbit⟩

/-- Witness for the amended C2: the word 256 (bit 8) on the sample controller. -/
theorem setXs_stores_any_word_witness :
    VirtualPLC.nX ≤ ((8 : Nat) : Int) ∧ (256 : Int).testBit 8 = true
    ∧ (sampleStopped.setXs sampleConfig 256).inputWord sampleConfig = 256 :=
  ⟨by decide, by decide,
    (setXs_stores_any_word sampleConfig sampleStopped 256 8 (by decide) (by decide)).1⟩

/-! ## Lifecycle -/

/-- C5: `clear()` is total and idempotent.  From every state, after `clear()` the
register file is the initial image; its input and output word are 0, the very words
that `resetXs` and `resetYs` produce from any state (`resetXs` writes 0 to the input
cell, `resetYs` writes 0 to the output cell, each leaving every other cell and
every other member as it was), so both are no-ops on the cleared state; every
timer and counter is in its initial state, the step counter is 0 and `isRunning()`
is false; a second `clear()` changes nothing. -/
theorem clear_idempotent_total (cfg : MemoryConfig) (s : VirtualPLC) :
    (s.clear cfg)._memory = Memory.initial
    ∧ (s.clear cfg).inputWord cfg = 0 ∧ (s.clear cfg).getYs cfg = 0
    ∧ (s.clear cfg).resetXs cfg = s.clear cfg ∧ (s.clear cfg).resetYs cfg = s.clear cfg
    ∧ (∀ t ∈ (s.clear cfg)._timers, t = Timer.initial)
    ∧ (s.clear cfg)._timers.length = cfg.nTIMERS
    ∧ (∀ c ∈ (s.clear cfg)._counters, c = Counter.initial)
    ∧ (s.clear cfg)._counters.length = cfg.nCOUNTERS
    ∧ (s.clear cfg)._step = 0
    ∧ (s.clear cfg).isRunning = false
    ∧ (s.clear cfg).clear cfg = s.clear cfg
    ∧ (s.resetXs cfg).inputWord cfg = 0 ∧ (s.resetYs cfg).getYs cfg = 0
    ∧ (s.clear cfg).inputWord cfg = (s.resetXs cfg).inputWord cfg
    ∧ (s.clear cfg).getYs cfg = (s.resetYs cfg).getYs cfg
    ∧ (∀ a, a ≠ cfg.INPUT_X → (s.resetXs cfg)._memory a = s._memory a)
    ∧ (∀ a, a ≠ cfg.OUTPUT_Y → (s.resetYs cfg)._memory a = s._memory a)
    ∧ s.resetXs cfg = { s with _memory := (s.resetXs cfg)._memory }
    ∧ s.resetYs cfg = { s with _memory := (s.resetYs cfg)._memory } := by
  have hx : (s.resetXs cfg).inputWord cfg = 0 := by
    simp [VirtualPLC.resetXs, VirtualPLC.inputWord, Memory.write_same]
  have hy : (s.resetYs cfg).getYs cfg = 0 := by
    simp [VirtualPLC.resetYs, VirtualPLC.getYs, Memory.write_same]
  refine ⟨rfl, rfl, rfl, ?_, ?_, ?_, ?_, ?_, ?_, rfl, rfl, ?_, hx, hy, ?_, ?_, ?_, ?_,
    rfl, rfl⟩
  · simp [VirtualPLC.clear, VirtualPLC.resetXs, Memory.initial_write_zero]
  · simp [VirtualPLC.clear, VirtualPLC.resetYs, Memory.initial_write_zero]
  · intro t ht
    exact List.eq_of_mem_replicate ht
  · simp [VirtualPLC.clear]
  · intro c hc
    exact List.eq_of_mem_replicate hc
  · simp [VirtualPLC.clear]
  · simp [VirtualPLC.clear, VirtualPLC.stop, PeriodicTask.stop_stop]
  · rw [hx]
    rfl
  · rw [hy]
    rfl
  · intro a ha
    simp [VirtualPLC.resetXs, Memory.write_other _ _ _ _ ha]
  · intro a ha
    simp [VirtualPLC.resetYs, Memory.write_other _ _ _ _ ha]

/-- C6: `isRunning()` returns the stored lifecycle flag and changes nothing.  From a
stopped controller `run()` and `start()` both give a running one, the very same
state, with memory, timers, counters and step counter untouched; from a running
controller `stop()` gives `isRunning() = false`; `clear()` gives
`isRunning() = false` from either state. -/
theorem lifecycle_two_state (cfg : MemoryConfig) (s r : VirtualPLC)
    (hs : s.isRunning = false) (hr : r.isRunning = true) :
    s.isRunning = s._isRunning ∧ (constCall VirtualPLC.isRunning s).2 = s
    ∧ s.run.isRunning = true ∧ s.start.isRunning = true
    ∧ s.run = s.start
    ∧ s.run._memory = s._memory ∧ s.run._timers = s._timers
    ∧ s.run._counters = s._counters ∧ s.run._step = s._step
    ∧ r.stop.isRunning = false
    ∧ (s.clear cfg).isRunning = false ∧ (r.clear cfg).isRunning = false := by
  have _ := hs
  have _ := hr
  exact ⟨rfl, rfl, rfl, rfl, rfl, rfl, rfl, rfl, rfl, rfl, rfl, rfl⟩

/-- Witness for C6: the sample controller, stopped and running. -/
theorem lifecycle_two_state_witness :
    sampleStopped.isRunning = false ∧ sampleRunning.isRunning = true
    ∧ sampleStopped.run.isRunning = true ∧ sampleRunning.stop.isRunning = false :=
  have h := lifecycle_two_state sampleConfig sampleStopped sampleRunning rfl rfl
  ⟨rfl, rfl, h.2.2.1, h.2.2.2.2.2.2.2.2.2.1⟩

/-! ## Bit-indexed output read -/

/-- C1 fails as stated: with bit 6 of the output word set, `getY 6` (an index outside
`[0, nY)`) returns `true`, after `resetYs` it returns `false`; it reads the bit
and does not fail with `IndexOutOfRange`. -/
theorem getY_unchecked_counterexample :
    ¬ (∀ (s : VirtualPLC) (i : Int), (i < 0 ∨ VirtualPLC.nY ≤ i) →
        s.getY sampleConfig i = .error .IndexOutOfRange)
    ∧ sampleStopped.getY sampleConfig 6 = .ok true
    ∧ (sampleStopped.resetYs sampleConfig).getY sampleConfig 6 = .ok false := by
  refine ⟨?_, rfl, rfl⟩
  intro h
  have h1 := h sampleStopped 6 (Or.inr (by decide))
  have h2 : sampleStopped.getY sampleConfig 6 = .ok true := rfl
  rw [h2] at h1
  cases h1

/-- C1 amended: `getY` does no check of the index against `nY` and never fails with
`IndexOutOfRange`.  For every state and every index `i` with `0 <= i < 31` (so also
`nY <= i < 31`) it returns whether bit `i` of the output word is set; an index below
0 or from 32 on is an undefined shift; the controller state is left unchanged. -/
theorem getY_reads_any_bit (cfg : MemoryConfig) (s : VirtualPLC) (i : Int)
    (hi : 0 ≤ i ∧ i < 31) :
    s.getY cfg i = .ok ((s.getYs cfg).testBit i.toNat)
    ∧ (∀ k : Int, s.getY cfg k ≠ .error .IndexOutOfRange)
    ∧ (∀ k : Int, (k < 0 ∨ 32 ≤ k) → s.getY cfg k = .error .UndefinedShift)
    ∧ (constCall (fun c => c.getY cfg i) s).2 = s := by
  refine ⟨getY_eq_testBit cfg s i hi, ?_, ?_, rfl⟩
  · intro k hk
    unfold VirtualPLC.getY shiftLeftOne at hk
    split_ifs at hk
    all_goals simp at hk
  · intro k hk
    have hnot : ¬ (0 ≤ k ∧ k < 32) := by omega
    simp [VirtualPLC.getY, shiftLeftOne, hnot]

/-- Witness for the amended C1: index 6 on the sample controller (output word 65). -/
theorem getY_reads_any_bit_witness :
    ((0 : Int) ≤ 6 ∧ (6 : Int) < 31)
    ∧ sampleStopped.getY sampleConfig 6
        = .ok ((sampleStopped.getYs sampleConfig).testBit (6 : Int).toNat) :=
  ⟨by decide, (getY_reads_any_bit sampleConfig sampleStopped 6 (by decide)).1⟩

/-- C3: for every state and every index `i` with `0 <= i < nY`, `getY i` returns a
value, and that value is true exactly when `(getYs() >> i) & 1 = 1`; in particular
`getY 0` is true exactly when `getYs() & 1 = 1`. -/
theorem getY_agrees_with_getYs (cfg : MemoryConfig) (s : VirtualPLC) (i : Int)
    (hi : 0 ≤ i ∧ i < VirtualPLC.nY) :
    (∃ b : Bool, s.getY cfg i = .ok b
      ∧ (b = true ↔ Int.land (Int.shiftRight (s.getYs cfg) i.toNat) 1 = 1))
    ∧ (s.getY cfg 0 = .ok true ↔ Int.land (s.getYs cfg) 1 = 1) := by
  have hi31 : 0 ≤ i ∧ i < 31 := ⟨hi.1, by have := hi.2; simp only [VirtualPLC.nY] at this; omega⟩
  constructor
  · refine ⟨_, getY_eq_testBit cfg s i hi31, ?_⟩
    rw [land_one_eq_one, int_testBit_shiftRight, Nat.add_zero]
  · rw [getY_eq_testBit cfg s 0 (by decide), land_one_eq_one]
    constructor
    · intro h
      injection h
    · intro h
      rw [← h]
      rfl

/-- Witness for C3: index 0 on the sample controller (output word 65). -/
theorem getY_agrees_with_getYs_witness :
    ((0 : Int) ≤ 0 ∧ (0 : Int) < VirtualPLC.nY)
    ∧ (sampleStopped.getY sampleConfig 0 = .ok true
        ↔ Int.land (sampleStopped.getYs sampleConfig) 1 = 1) :=
  ⟨by decide, (getY_agrees_with_getYs sampleConfig sampleStopped 0 (by decide)).2⟩

/-! ## Bit-indexed input write -/

/-- C7: for every state and every index `i` in `[0, nX)`, `setX i v` succeeds and bit
`i` of the input word then reads `v` (true after `setX i true`, false after
`setX i false`); from any state a later `setX j b` with `j` in range and `j != i`
succeeds and leaves bit `i` as it was; for an index outside `[0, nX)` `setX` fails
with `IndexOutOfRange` and produces no new state. -/
theorem setX_sets_bit (cfg : MemoryConfig) (s : VirtualPLC) (i j : Int) (v b : Bool)
    (hi : 0 ≤ i ∧ i < VirtualPLC.nX) (hj : 0 ≤ j ∧ j < VirtualPLC.nX) (hij : j ≠ i) :
    (∃ s1, s.setX cfg i v = .ok s1
      ∧ (s1.inputWord cfg).testBit i.toNat = v
      ∧ ∃ s2, s1.setX cfg j b = .ok s2 ∧ (s2.inputWord cfg).testBit i.toNat = v)
    ∧ (∀ t : VirtualPLC, ∃ t', t.setX cfg j b = .ok t'
        ∧ (t'.inputWord cfg).testBit i.toNat = (t.inputWord cfg).testBit i.toNat)
    ∧ (∀ (k : Int) (c : Bool), (k < 0 ∨ VirtualPLC.nX ≤ k) →
        s.setX cfg k c = .error .IndexOutOfRange) := by
  have hne : j.toNat ≠ i.toNat := by
    intro h
    apply hij
    have h1 := Int.toNat_of_nonneg hi.1
    have h2 := Int.toNat_of_nonneg hj.1
    omega
  have frame : ∀ t : VirtualPLC, ∃ t', t.setX cfg j b = .ok t'
      ∧ (t'.inputWord cfg).testBit i.toNat = (t.inputWord cfg).testBit i.toNat := by
    intro t
    obtain ⟨t', ht', hbits⟩ := setX_bits cfg t j b hj
    exact ⟨t', ht', by rw [hbits, if_neg hne]⟩
  refine ⟨?_, frame, ?_⟩
  · obtain ⟨s1, hs1, hbits⟩ := setX_bits cfg s i v hi
    have hv : (s1.inputWord cfg).testBit i.toNat = v := by rw [hbits, if_pos rfl]
    obtain ⟨s2, hs2, hkeep⟩ := frame s1
    exact ⟨s1, hs1, hv, s2, hs2, by rw [hkeep, hv]⟩
  · intro k c hk
    have hnot : ¬ (0 ≤ k ∧ k < VirtualPLC.nX) := by omega
    simp [VirtualPLC.setX, hnot]

/-- Witness for C7: input 2 set and then input 3 written on the sample controller. -/
theorem setX_sets_bit_witness :
    ((0 : Int) ≤ 2 ∧ (2 : Int) < VirtualPLC.nX) ∧ ((0 : Int) ≤ 3 ∧ (3 : Int) < VirtualPLC.nX)
    ∧ (3 : Int) ≠ 2
    ∧ ∃ s1, sampleStopped.setX sampleConfig 2 true = .ok s1
        ∧ (s1.inputWord sampleConfig).testBit (2 : Int).toNat = true
        ∧ ∃ s2, s1.setX sampleConfig 3 false = .ok s2
          ∧ (s2.inputWord sampleConfig).testBit (2 : Int).toNat = true :=
  ⟨by decide, by decide, by decide,
    (setX_sets_bit sampleConfig sampleStopped 2 3 true false
      (by decide) (by decide) (by decide)).1⟩

end PLC
